import Mathlib

/-!
Verification of the position/risk state engine of the bitcoin-auto-bot
repository.  Prices, money amounts and times are modelled as exact
rationals (`ℚ`); times are measured in hours, so `timedelta(hours=h)`
becomes `+ h`.  Each Python class becomes a Lean structure and each
method a function on that structure; `datetime.now()` becomes an explicit
`now` argument.
-/

namespace AutoBot

/-! ## app/risk.py : PositionSide, Position -/

inductive PositionSide where
  | long
  | short
  | flat
deriving DecidableEq

def PositionSide.value : PositionSide → String
  | .long => "long"
  | .short => "short"
  | .flat => "flat"

structure Position where
  side : PositionSide
  entry_price : ℚ
  volume : ℚ
  stop_loss : ℚ
  trail_price : ℚ
  timestamp : ℚ
  unrealized_pnl : ℚ
  realized_pnl : ℚ
  max_favorable_excursion : ℚ
  max_adverse_excursion : ℚ
  initial_risk : ℚ
  r_multiple : ℚ
deriving DecidableEq

/-- `Position.__init__`: the trailing price starts at the fixed stop,
the initial risk is `|entry - stop| * volume`, all P&L trackers start at 0. -/
def Position.init (side : PositionSide) (entry_price volume stop_loss timestamp : ℚ) :
    Position where
  side := side
  entry_price := entry_price
  volume := volume
  stop_loss := stop_loss
  trail_price := stop_loss
  timestamp := timestamp
  unrealized_pnl := 0
  realized_pnl := 0
  max_favorable_excursion := 0
  max_adverse_excursion := 0
  initial_risk := |entry_price - stop_loss| * volume
  r_multiple := 0

/-- `Position.update_unrealized_pnl` -/
def Position.update_unrealized_pnl (p : Position) (current_price : ℚ) : Position :=
  let upnl :=
    match p.side with
    | .long => (current_price - p.entry_price) * p.volume
    | .short => (p.entry_price - current_price) * p.volume
    | .flat => p.unrealized_pnl
  let mfe := if p.max_favorable_excursion < upnl then upnl else p.max_favorable_excursion
  let mae := if upnl < p.max_adverse_excursion then upnl else p.max_adverse_excursion
  let r := if 0 < p.initial_risk then upnl / p.initial_risk else p.r_multiple
  { p with
    unrealized_pnl := upnl
    max_favorable_excursion := mfe
    max_adverse_excursion := mae
    r_multiple := r }

/-- `Position.update_trailing_stop`: for a long position the trail only
moves up, for a short position it only moves down. -/
def Position.update_trailing_stop (p : Position) (current_price atr multiplier : ℚ) :
    Position :=
  match p.side with
  | .long =>
      let new_stop := current_price - atr * multiplier
      if p.trail_price < new_stop then { p with trail_price := new_stop } else p
  | .short =>
      let new_stop := current_price + atr * multiplier
      if new_stop < p.trail_price then { p with trail_price := new_stop } else p
  | .flat => p

/-- `Position.should_close` -/
def Position.should_close (p : Position) (current_price : ℚ) : Bool :=
  match p.side with
  | .long => current_price ≤ p.trail_price
  | .short => p.trail_price ≤ current_price
  | .flat => false

/-- `Position.close_position`: computes the realized P&L from the side,
recomputes the final R-multiple when `initial_risk > 0`, marks the
position flat and returns the realized P&L. -/
def Position.close_position (p : Position) (exit_price : ℚ) : Position × ℚ :=
  let realized :=
    match p.side with
    | .long => (exit_price - p.entry_price) * p.volume
    | .short => (p.entry_price - exit_price) * p.volume
    | .flat => p.realized_pnl
  let r := if 0 < p.initial_risk then realized / p.initial_risk else p.r_multiple
  ({ p with realized_pnl := realized, r_multiple := r, side := .flat }, realized)

/-- Folding a list of `(current_price, atr, multiplier)` triples through
`update_trailing_stop`, as an arbitrary sequence of update calls. -/
def applyTrailUpdates (p : Position) (updates : List (ℚ × ℚ × ℚ)) : Position :=
  updates.foldl (fun q u => q.update_trailing_stop u.1 u.2.1 u.2.2) p

/-! ## app/risk.py : PositionSizer

Python's `round(x, 8)` is round-half-to-even on the value shifted by
`10^8`; we model the idealized (exact rational) semantics. -/

/-- `q.num / q.den` with Euclidean integer division is the floor of `q`. -/
def ratFloor (q : ℚ) : ℤ := q.num / q.den

/-- Round-half-to-even of a rational to an integer (Python `round`). -/
def roundHalfEven (q : ℚ) : ℤ :=
  let f := ratFloor q
  let r := q - f
  if r < 1/2 then f
  else if 1/2 < r then f + 1
  else if f % 2 = 0 then f else f + 1

/-- Python `round(q, n)` for non-negative `n` (idealized over `ℚ`). -/
def pythonRound (q : ℚ) (n : ℕ) : ℚ := (roundHalfEven (q * 10 ^ n) : ℚ) / 10 ^ n

structure PositionSizer where
  r_per_trade_bps : ℚ
  max_position : ℚ
deriving DecidableEq

/-- `PositionSizer.calculate_position_size` (the returned info dict is
dropped; only the volume is modelled).  Risk budget `equity * bps/10000 *
confidence` divided by the stop distance, clamped to `0.95 * equity /
entry_price`, floored to zero below the Upbit minimum 0.00008 BTC and
rounded to 8 decimal places. -/
def PositionSizer.calculate_position_size (ps : PositionSizer)
    (equity entry_price stop_loss confidence : ℚ) : ℚ :=
  let risk_per_trade := equity * (ps.r_per_trade_bps / 10000)
  let adjusted_risk := risk_per_trade * confidence
  let stop_distance := |entry_price - stop_loss|
  if stop_distance ≤ 0 then 0
  else
    let position_size := adjusted_risk / stop_distance
    let max_position_size := equity * (95/100) / entry_price
    let position_size :=
      if max_position_size < position_size then max_position_size else position_size
    let min_order_size : ℚ := 8/100000
    if position_size < min_order_size then 0
    else pythonRound position_size 8

/-- `PositionSizer.calculate_stop_loss`: ATR-based stop, rounded to the
nearest KRW (Python `round(x)` = half-even to an integer). -/
def PositionSizer.calculate_stop_loss (entry_price atr : ℚ) (side : PositionSide)
    (multiplier : ℚ) : ℚ :=
  match side with
  | .long => (roundHalfEven (entry_price - atr * multiplier) : ℚ)
  | .short => (roundHalfEven (entry_price + atr * multiplier) : ℚ)
  | .flat => entry_price

/-- The specification-side sizing expression: risk budget
`equity * bps/10000 * confidence` over the stop distance, clamped to at
most `0.95 * equity / entry_price` (before the minimum-unit floor and
the final rounding). -/
def sizeClamped (ps : PositionSizer) (equity entry_price stop_loss confidence : ℚ) : ℚ :=
  let raw := equity * (ps.r_per_trade_bps / 10000) * confidence / |entry_price - stop_loss|
  let maxSize := equity * (95/100) / entry_price
  if maxSize < raw then maxSize else raw

/-! ## app/risk.py : RiskManager -/

structure TradeRecord where
  timestamp : ℚ
  side : String
  entry_price : ℚ
  exit_price : ℚ
  volume : ℚ
  realized_pnl : ℚ
  r_multiple : ℚ
  mfe : ℚ
  mae : ℚ
  reason : String
deriving DecidableEq

structure RiskManager where
  daily_stop_r : ℚ
  weekly_stop_r : ℚ
  daily_pnl : ℚ
  weekly_pnl : ℚ
  daily_r_multiple : ℚ
  weekly_r_multiple : ℚ
  trading_halted : Bool
  halt_reason : String
  halt_until : Option ℚ
  current_position : Option Position
  trade_history : List TradeRecord
  daily_trades : ℕ
  weekly_trades : ℕ
deriving DecidableEq

/-- `RiskManager.resume_trading` -/
def RiskManager.resume_trading (s : RiskManager) : RiskManager :=
  { s with trading_halted := false, halt_reason := "", halt_until := none }

/-- True when a position object is present and not flat. -/
def RiskManager.positionIsOpen (s : RiskManager) : Bool :=
  match s.current_position with
  | some p => p.side != PositionSide.flat
  | none => false

/-- `RiskManager.close_position`: with an open position, computes the
realized P&L, appends a trade record (whose `side` field is read *after*
`Position.close_position` has set the side to flat), accumulates P&L and
R-multiple into the daily/weekly counters and clears the position;
otherwise a no-op returning `none`.  The numeric suffix of the log/record
strings is not modelled. -/
def RiskManager.close_position (s : RiskManager) (now exit_price : ℚ)
    (reason : String) : RiskManager × Option ℚ :=
  match s.current_position with
  | none => (s, none)
  | some p =>
    if p.side = PositionSide.flat then (s, none)
    else
      let res := p.close_position exit_price
      let closed := res.1
      let realized := res.2
      let record : TradeRecord :=
        { timestamp := now
          side := closed.side.value
          entry_price := closed.entry_price
          exit_price := exit_price
          volume := closed.volume
          realized_pnl := realized
          r_multiple := closed.r_multiple
          mfe := closed.max_favorable_excursion
          mae := closed.max_adverse_excursion
          reason := reason }
      ({ s with
          trade_history := s.trade_history ++ [record]
          daily_pnl := s.daily_pnl + realized
          weekly_pnl := s.weekly_pnl + realized
          daily_r_multiple := s.daily_r_multiple + closed.r_multiple
          weekly_r_multiple := s.weekly_r_multiple + closed.r_multiple
          current_position := none },
        some realized)

/-- `RiskManager.halt_trading`: records the halt (until `now + hours`)
and, if a position is open, immediately force-closes it at its own entry
price. -/
def RiskManager.halt_trading (s : RiskManager) (now : ℚ) (reason : String)
    (hours : ℚ) : RiskManager :=
  let s1 := { s with
    trading_halted := true
    halt_reason := reason
    halt_until := some (now + hours) }
  if s1.positionIsOpen then
    match s1.current_position with
    | some p => (s1.close_position now p.entry_price ("긴급청산: " ++ reason)).1
    | none => s1
  else s1

/-- Whether a recorded halt is still blocking at time `now`
(`trading_halted` set with an unexpired `halt_until`). -/
def RiskManager.haltActive (s : RiskManager) (now : ℚ) : Bool :=
  s.trading_halted &&
    (match s.halt_until with
     | some t => decide (now < t)
     | none => false)

/-- The auto-clear step at the top of `can_open_position`: a recorded
halt whose deadline has passed (or was never set) is resumed. -/
def RiskManager.afterExpiry (s : RiskManager) : RiskManager :=
  if s.trading_halted then s.resume_trading else s

/-- `RiskManager.can_open_position`: returns the (possibly mutated)
manager together with the decision and the reason string.  An expired
halt auto-clears; a breached daily/weekly floor triggers a 24h/168h halt
as a side effect.  Numeric suffixes of the reason strings are not
modelled. -/
def RiskManager.can_open_position (s : RiskManager) (now : ℚ) :
    RiskManager × Bool × String :=
  if s.haltActive now then
    (s, false, "거래 중단 중: " ++ s.halt_reason)
  else
    let s1 := s.afterExpiry
    if s1.positionIsOpen then
      (s1, false, "기존 포지션이 존재합니다")
    else if s1.daily_r_multiple ≤ s1.daily_stop_r then
      (s1.halt_trading now "일일 손실 한도 도달" 24, false, "일일 손실 한도 도달")
    else if s1.weekly_r_multiple ≤ s1.weekly_stop_r then
      (s1.halt_trading now "주간 손실 한도 도달" 168, false, "주간 손실 한도 도달")
    else
      (s1, true, "포지션 개설 가능")

/-! ## app/broker.py : Order, TradingBroker

The exchange gateway is modelled as an oracle: a list with one entry per
placement attempt, `some uuid` for an acknowledged order and `none` for
a raised gateway error.  `time.sleep(retry_delay)` is modelled by
recording the slept delay in an output list. -/

inductive OrderType where
  | market
  | limit
  | stop_loss
  | take_profit
deriving DecidableEq

inductive OrderStatus where
  | pending
  | open
  | filled
  | canceled
  | rejected
  | expired
deriving DecidableEq

structure Order where
  id : Option String
  client_order_id : String
  symbol : String
  side : String
  order_type : OrderType
  amount : ℚ
  price : Option ℚ
  stop_price : Option ℚ
  status : OrderStatus
  filled_amount : ℚ
  remaining_amount : ℚ
  average_price : ℚ
  fee : ℚ
  fee_currency : String
  created_at : ℚ
  updated_at : ℚ
  filled_at : Option ℚ
deriving DecidableEq

/-- `Order.__init__` -/
def Order.init (symbol side : String) (order_type : OrderType) (amount : ℚ)
    (price stop_price : Option ℚ) (client_order_id : String) (now : ℚ) : Order where
  id := none
  client_order_id := client_order_id
  symbol := symbol
  side := side
  order_type := order_type
  amount := amount
  price := price
  stop_price := stop_price
  status := .pending
  filled_amount := 0
  remaining_amount := amount
  average_price := 0
  fee := 0
  fee_currency := ""
  created_at := now
  updated_at := now
  filled_at := none

structure BrokerState where
  active_orders : List (String × Order)
  order_history : List Order
  total_orders : ℕ
  successful_orders : ℕ
  failed_orders : ℕ
  max_retries : ℕ
  retry_delay : ℚ
deriving DecidableEq

/-- The retry loop of `TradingBroker._execute_live_order`: one oracle
entry per attempt; a failed non-final attempt sleeps `retry_delay` and
retries; a failed final attempt re-raises, caught by the outer handler
which increments `failed_orders` and returns `none` (the order is never
registered).  A successful attempt assigns the exchange id, marks the
order `open` and registers it in `active_orders`. -/
def liveAttempts (b : BrokerState) (o : Order) :
    ℕ → List (Option String) → Option Order × BrokerState × List ℚ
  | 0, _ => (none, { b with failed_orders := b.failed_orders + 1 }, [])
  | _ + 1, [] => (none, { b with failed_orders := b.failed_orders + 1 }, [])
  | n + 1, resp :: rest =>
    match resp with
    | some uuid =>
        let o1 := { o with id := some uuid, status := OrderStatus.open }
        (some o1,
         { b with
            active_orders := b.active_orders ++ [(o1.client_order_id, o1)]
            total_orders := b.total_orders + 1 },
         [])
    | none =>
        if n = 0 then (none, { b with failed_orders := b.failed_orders + 1 }, [])
        else
          let res := liveAttempts b o n rest
          (res.1, res.2.1, b.retry_delay :: res.2.2)

/-- `TradingBroker._execute_live_order`, returning the submitted order
(or `none`), the broker state and the list of backoff delays slept. -/
def BrokerState.execute_live_order (b : BrokerState) (o : Order)
    (gateway : List (Option String)) : Option Order × BrokerState × List ℚ :=
  liveAttempts b o b.max_retries gateway

/-- `TradingBroker._execute_paper_order`: `price = none` models a raised
error fetching the current price (order marked rejected, not
registered); a market order fills immediately (not registered as
active); a limit order is registered `open`. -/
def BrokerState.execute_paper_order (b : BrokerState) (o : Order) (now : ℚ)
    (price : Option ℚ) : Order × BrokerState :=
  match price with
  | none =>
      ({ o with status := OrderStatus.rejected },
       { b with failed_orders := b.failed_orders + 1 })
  | some p =>
      if o.order_type = OrderType.market then
        let o1 := { o with
          status := OrderStatus.filled
          average_price := p
          filled_amount := o.amount
          remaining_amount := 0
          filled_at := some now
          id := some ("paper_" ++ o.client_order_id)
          fee := o.amount * p * (5/10000)
          fee_currency := "KRW" }
        (o1, { b with
                total_orders := b.total_orders + 1
                successful_orders := b.successful_orders + 1 })
      else
        let o1 := { o with
          status := OrderStatus.open
          id := some ("paper_" ++ o.client_order_id) }
        (o1, { b with
                active_orders := b.active_orders ++ [(o1.client_order_id, o1)]
                total_orders := b.total_orders + 1
                successful_orders := b.successful_orders + 1 })

/-! ## ISO-8601 timestamps (`datetime.isoformat` / `fromisoformat`)

`SystemState.to_dict` serialises `last_updated` with `isoformat()` and
`from_dict` parses it back with `fromisoformat`.  We model `datetime`
as a record of calendar fields and implement the fixed-width printer and
its parser over character lists. -/

structure DateTime where
  year : ℕ
  month : ℕ
  day : ℕ
  hour : ℕ
  minute : ℕ
  second : ℕ
  microsecond : ℕ
deriving DecidableEq

/-- The decimal digits of `n`, most significant first, padded/truncated
to width `w`. -/
def padDigits : ℕ → ℕ → List ℕ
  | 0, _ => []
  | w + 1, n => n / 10 ^ w % 10 :: padDigits w n

def digitToChar (d : ℕ) : Char := Char.ofNat (48 + d)

def charToDigit (c : Char) : Option ℕ :=
  if 48 ≤ c.toNat ∧ c.toNat ≤ 57 then some (c.toNat - 48) else none

def padChars (w n : ℕ) : List Char := (padDigits w n).map digitToChar

def decodeDigits (ds : List ℕ) : ℕ := ds.foldl (fun a d => a * 10 + d) 0

def mapDigits : List Char → Option (List ℕ)
  | [] => some []
  | c :: cs =>
    match charToDigit c, mapDigits cs with
    | some d, some ds => some (d :: ds)
    | _, _ => none

/-- Read exactly `w` decimal digits from the front of `cs`. -/
def readFixed (w : ℕ) (cs : List Char) : Option (ℕ × List Char) :=
  if w ≤ cs.length then
    (mapDigits (cs.take w)).map (fun ds => (decodeDigits ds, cs.drop w))
  else none

def expectChar (c : Char) : List Char → Option (List Char)
  | [] => none
  | x :: xs => if x = c then some xs else none

/-- `datetime.isoformat()`: `YYYY-MM-DDTHH:MM:SS`, with `.ffffff`
appended only when the microsecond field is nonzero. -/
def DateTime.isoChars (d : DateTime) : List Char :=
  padChars 4 d.year ++ '-' ::
    (padChars 2 d.month ++ '-' ::
      (padChars 2 d.day ++ 'T' ::
        (padChars 2 d.hour ++ ':' ::
          (padChars 2 d.minute ++ ':' ::
            (padChars 2 d.second ++
              (if d.microsecond = 0 then [] else '.' :: padChars 6 d.microsecond))))))

def DateTime.isoformat (d : DateTime) : String := String.mk d.isoChars

/-- Sequencing of parse steps (`Option.bind`, written out so that each
step is a definitional reduction). -/
def pBind {α β : Type} : Option α → (α → Option β) → Option β
  | none, _ => none
  | some a, k => k a

/-- The optional `.ffffff` fraction together with the end of input. -/
def parseFraction (y mo da h mi se : ℕ) : List Char → Option DateTime
  | [] => some ⟨y, mo, da, h, mi, se, 0⟩
  | cs =>
    pBind (expectChar '.' cs) fun cs =>
    pBind (readFixed 6 cs) fun usc =>
    match usc.2 with
    | [] => some ⟨y, mo, da, h, mi, se, usc.1⟩
    | _ => none

/-- `datetime.fromisoformat` restricted to the shapes `isoformat`
produces. -/
def parseIsoChars (cs : List Char) : Option DateTime :=
  pBind (readFixed 4 cs) fun yc =>
  pBind (expectChar '-' yc.2) fun cs =>
  pBind (readFixed 2 cs) fun moc =>
  pBind (expectChar '-' moc.2) fun cs =>
  pBind (readFixed 2 cs) fun dac =>
  pBind (expectChar 'T' dac.2) fun cs =>
  pBind (readFixed 2 cs) fun hc =>
  pBind (expectChar ':' hc.2) fun cs =>
  pBind (readFixed 2 cs) fun mic =>
  pBind (expectChar ':' mic.2) fun cs =>
  pBind (readFixed 2 cs) fun sec =>
  parseFraction yc.1 moc.1 dac.1 hc.1 mic.1 sec.1 sec.2

def DateTime.fromisoformat (s : String) : Option DateTime := parseIsoChars s.data

/-! ## app/state.py : SystemState, StateManager

`current_position`, `active_orders` and `last_signal` hold plain
dictionaries that serialisation passes through unchanged; we model them
as association lists. -/

abbrev StrMap := List (String × String)

structure SystemState where
  last_updated : DateTime
  trading_active : Bool
  current_position : Option StrMap
  active_orders : List StrMap
  daily_pnl : ℚ
  weekly_pnl : ℚ
  daily_r_multiple : ℚ
  weekly_r_multiple : ℚ
  total_trades : ℕ
  last_price : ℚ
  last_signal : Option StrMap
deriving DecidableEq

/-- The dictionary produced by `SystemState.to_dict` (all fields as-is,
`last_updated` replaced by its ISO string). -/
structure SystemStateDict where
  last_updated : String
  trading_active : Bool
  current_position : Option StrMap
  active_orders : List StrMap
  daily_pnl : ℚ
  weekly_pnl : ℚ
  daily_r_multiple : ℚ
  weekly_r_multiple : ℚ
  total_trades : ℕ
  last_price : ℚ
  last_signal : Option StrMap
deriving DecidableEq

/-- `SystemState.to_dict` -/
def SystemState.to_dict (s : SystemState) : SystemStateDict where
  last_updated := s.last_updated.isoformat
  trading_active := s.trading_active
  current_position := s.current_position
  active_orders := s.active_orders
  daily_pnl := s.daily_pnl
  weekly_pnl := s.weekly_pnl
  daily_r_multiple := s.daily_r_multiple
  weekly_r_multiple := s.weekly_r_multiple
  total_trades := s.total_trades
  last_price := s.last_price
  last_signal := s.last_signal

/-- `SystemState.from_dict` (parsing the timestamp can fail, hence
`Option`; Python would raise a `ValueError` there). -/
def SystemState.from_dict (d : SystemStateDict) : Option SystemState :=
  match DateTime.fromisoformat d.last_updated with
  | none => none
  | some t =>
    some
      { last_updated := t
        trading_active := d.trading_active
        current_position := d.current_position
        active_orders := d.active_orders
        daily_pnl := d.daily_pnl
        weekly_pnl := d.weekly_pnl
        daily_r_multiple := d.daily_r_multiple
        weekly_r_multiple := d.weekly_r_multiple
        total_trades := d.total_trades
        last_price := d.last_price
        last_signal := d.last_signal }

/-- A value held in the Redis cache tier. -/
inductive RedisValue where
  | str : String → RedisValue
  | state : SystemStateDict → RedisValue
deriving DecidableEq

/-- `RedisManager.set_state` (most recent write first). -/
def redisSet (store : List (String × RedisValue)) (key : String) (v : RedisValue) :
    List (String × RedisValue) :=
  (key, v) :: store.filter (fun e => e.1 ≠ key)

/-- `RedisManager.get_state` -/
def redisGet (store : List (String × RedisValue)) (key : String) :
    Option RedisValue :=
  (store.find? (fun e => e.1 = key)).map (fun e => e.2)

structure StateManager where
  current_state : Option SystemState
  redis : List (String × RedisValue)
  emergency_stop_flag : Bool
deriving DecidableEq

/-- The fresh default state built by `StateManager.initialize_state`
when the cache holds nothing. -/
def freshSystemState (now : DateTime) : SystemState where
  last_updated := now
  trading_active := true
  current_position := none
  active_orders := []
  daily_pnl := 0
  weekly_pnl := 0
  daily_r_multiple := 0
  weekly_r_multiple := 0
  total_trades := 0
  last_price := 0
  last_signal := none

/-- `StateManager.is_killswitch_active`: reads `trading_active` from the
in-memory `SystemState` (defaults to active when no state exists). -/
def StateManager.is_killswitch_active (m : StateManager) : Bool :=
  match m.current_state with
  | some st => !st.trading_active
  | none => true

/-- The FIRST `StateManager.activate_killswitch` definition in the class
body (state.py line 706): sets `trading_active := false` and persists
the snapshot to the cache.  In Python this definition is dead code: the
second definition later in the same class body shadows it. -/
def StateManager.activate_killswitch_shadowed (m : StateManager) (now : DateTime) :
    StateManager :=
  match m.current_state with
  | none => m
  | some st =>
    let st1 := { st with trading_active := false, last_updated := now }
    { m with
        current_state := some st1
        redis := redisSet m.redis "system_state" (RedisValue.state st1.to_dict) }

/-- The SECOND, effective `StateManager.activate_killswitch` definition
(state.py line 1000): writes the Redis killswitch keys and schedules
`set_emergency_stop(True)` (modelled as having run, setting the
emergency flag).  It never touches `trading_active`. -/
def StateManager.activate_killswitch (m : StateManager) (now : DateTime)
    (reason : String) : StateManager :=
  { m with
      redis :=
        redisSet
          (redisSet
            (redisSet m.redis "killswitch_active" (RedisValue.str "1"))
            "killswitch_reason" (RedisValue.str reason))
          "killswitch_timestamp" (RedisValue.str now.isoformat)
      emergency_stop_flag := true }

/-! ## Concrete sample states used to instantiate theorems -/

/-- A long position, entry 100, volume 1, stop 97 (the record produced
by `Position.init PositionSide.long 100 1 97 0`). -/
def witnessPosition : Position :=
  { side := PositionSide.long, entry_price := 100, volume := 1, stop_loss := 97, trail_price := 97, timestamp := 0, unrealized_pnl := 0, realized_pnl := 0, max_favorable_excursion := 0, max_adverse_excursion := 0, initial_risk := 3, r_multiple := 0 }

/-- A manager holding `witnessPosition`, with no halt and zeroed
accumulators (default floors −2R daily / −5R weekly). -/
def witnessOpenManager : RiskManager :=
  { daily_stop_r := -2, weekly_stop_r := -5, daily_pnl := 0, weekly_pnl := 0, daily_r_multiple := 0, weekly_r_multiple := 0, trading_halted := false, halt_reason := "", halt_until := none, current_position := some witnessPosition, trade_history := [], daily_trades := 1, weekly_trades := 1 }

/-- A flat manager whose daily R-multiple sits exactly at the −2R floor
(two −1R losses). -/
def witnessFloorManager : RiskManager :=
  { daily_stop_r := -2, weekly_stop_r := -5, daily_pnl := -6, weekly_pnl := -6, daily_r_multiple := -2, weekly_r_multiple := -2, trading_halted := false, halt_reason := "", halt_until := none, current_position := none, trade_history := [], daily_trades := 2, weekly_trades := 2 }

/-- A flat, idle manager above both loss floors. -/
def witnessIdleManager : RiskManager :=
  { daily_stop_r := -2, weekly_stop_r := -5, daily_pnl := 0, weekly_pnl := 0, daily_r_multiple := 0, weekly_r_multiple := 0, trading_halted := false, halt_reason := "", halt_until := none, current_position := none, trade_history := [], daily_trades := 0, weekly_trades := 0 }

/-- A state manager holding a fresh (trading-active) system state, as
built by `initialize_state` on first start. -/
def witnessStateManager : StateManager :=
  { current_state := some (freshSystemState ⟨2024, 1, 1, 0, 0, 0, 0⟩), redis := [], emergency_stop_flag := false }

/-- A fresh broker with the source's retry settings (3 attempts, 1s). -/
def witnessBroker : BrokerState :=
  { active_orders := [], order_history := [], total_orders := 0, successful_orders := 0, failed_orders := 0, max_retries := 3, retry_delay := 1 }

/-- A market buy order as `create_market_order` builds it. -/
def witnessOrder : Order :=
  Order.init "KRW-BTC" "buy" OrderType.market 1 none none "market_buy_0" 0

/-! ## Helper lemmas: decimal printing and parsing -/

theorem padChars_length (w n : ℕ) : (padChars w n).length = w := by
  induction w generalizing n with
  | zero => rfl
  | succ w ih => simp [padChars, padDigits] at ih ⊢; exact ih n

theorem foldl_padDigits (w : ℕ) : ∀ (n a : ℕ),
    List.foldl (fun a d => a * 10 + d) a (padDigits w n) = a * 10 ^ w + n % 10 ^ w := by
  induction w with
  | zero => intro n a; simp [padDigits, Nat.mod_one]
  | succ w ih =>
    intro n a
    simp only [padDigits, List.foldl_cons]
    rw [ih]
    have h10 : (10 : ℕ) ^ (w + 1) = 10 ^ w * 10 := by ring
    rw [h10, Nat.mod_mul]
    ring

theorem decodeDigits_padDigits (w n : ℕ) : decodeDigits (padDigits w n) = n % 10 ^ w := by
  have := foldl_padDigits w n 0
  simpa [decodeDigits] using this

theorem charToDigit_digitToChar {d : ℕ} (h : d < 10) :
    charToDigit (digitToChar d) = some d := by
  interval_cases d <;> decide

theorem mapDigits_padChars (w n : ℕ) : mapDigits (padChars w n) = some (padDigits w n) := by
  induction w generalizing n with
  | zero => rfl
  | succ w ih =>
    simp only [padChars, padDigits, List.map_cons, mapDigits]
    rw [charToDigit_digitToChar (Nat.mod_lt _ (by norm_num))]
    have := ih n
    simp only [padChars] at this
    rw [this]

theorem readFixed_padChars (w n : ℕ) (rest : List Char) (h : n < 10 ^ w) :
    readFixed w (padChars w n ++ rest) = some (n, rest) := by
  have hlen : (padChars w n).length = w := padChars_length w n
  have htake : (padChars w n ++ rest).take w = padChars w n := by
    have := List.take_left (padChars w n) rest
    rwa [hlen] at this
  have hdrop : (padChars w n ++ rest).drop w = rest := by
    have := List.drop_left (padChars w n) rest
    rwa [hlen] at this
  simp only [readFixed, List.length_append, hlen]
  rw [if_pos (Nat.le_add_right _ _), htake, hdrop, mapDigits_padChars]
  simp [decodeDigits_padDigits, Nat.mod_eq_of_lt h]

theorem expectChar_cons (c : Char) (rest : List Char) :
    expectChar c (c :: rest) = some rest := by
  simp [expectChar]

theorem pBind_some {α β : Type} (a : α) (k : α → Option β) :
    pBind (some a) k = k a := rfl

/-- Parsing inverts printing for every datetime whose fields fit the
printed widths. -/
theorem parseIso_isoChars (d : DateTime) (hy : d.year < 10000) (hmo : d.month < 100)
    (hda : d.day < 100) (hh : d.hour < 100) (hmi : d.minute < 100)
    (hse : d.second < 100) (hus : d.microsecond < 1000000) :
    parseIsoChars d.isoChars = some d := by
  obtain ⟨y, mo, da, h, mi, se, us⟩ := d
  simp only at hy hmo hda hh hmi hse hus
  rw [DateTime.isoChars]
  simp only
  rw [parseIsoChars]
  rw [readFixed_padChars 4 y _ hy]; simp only [pBind_some]
  rw [expectChar_cons]; simp only [pBind_some]
  rw [readFixed_padChars 2 mo _ hmo]; simp only [pBind_some]
  rw [expectChar_cons]; simp only [pBind_some]
  rw [readFixed_padChars 2 da _ hda]; simp only [pBind_some]
  rw [expectChar_cons]; simp only [pBind_some]
  rw [readFixed_padChars 2 h _ hh]; simp only [pBind_some]
  rw [expectChar_cons]; simp only [pBind_some]
  rw [readFixed_padChars 2 mi _ hmi]; simp only [pBind_some]
  rw [expectChar_cons]; simp only [pBind_some]
  by_cases h0 : us = 0
  · subst h0
    rw [if_pos rfl, List.append_nil]
    have hse2 : readFixed 2 (padChars 2 se) = some (se, ([] : List Char)) := by
      have := readFixed_padChars 2 se [] hse
      simpa using this
    rw [hse2]; simp only [pBind_some]
    rfl
  · rw [if_neg h0]
    rw [readFixed_padChars 2 se _ hse]; simp only [pBind_some]
    rw [parseFraction]
    rw [expectChar_cons]; simp only [pBind_some]
    have hus2 : readFixed 6 (padChars 6 us) = some (us, ([] : List Char)) := by
      have := readFixed_padChars 6 us [] hus
      simpa using this
    rw [hus2]; simp only [pBind_some]
    exact fun hc => absurd hc (List.cons_ne_nil _ _)

/-! ## Claim C9 -/

/-- C9: for every `SystemState` whose timestamp fields fit their printed
widths, serialising with `to_dict` and deserialising with `from_dict`
yields the identical `SystemState`, field for field. -/
theorem C9_systemstate_roundtrip (s : SystemState)
    (hy : s.last_updated.year < 10000) (hmo : s.last_updated.month < 100)
    (hda : s.last_updated.day < 100) (hh : s.last_updated.hour < 100)
    (hmi : s.last_updated.minute < 100) (hse : s.last_updated.second < 100)
    (hus : s.last_updated.microsecond < 1000000) :
    SystemState.from_dict s.to_dict = some s := by
  simp only [SystemState.to_dict, SystemState.from_dict, DateTime.fromisoformat,
    DateTime.isoformat]
  rw [parseIso_isoChars s.last_updated hy hmo hda hh hmi hse hus]

/-- Witness for C9 at a concrete state. -/
theorem C9_systemstate_roundtrip_witness :
    SystemState.from_dict
        (SystemState.to_dict
          { last_updated := ⟨2024, 3, 5, 12, 30, 45, 123456⟩
            trading_active := true
            current_position := some [("side", "long")]
            active_orders := [[("uuid", "abc")]]
            daily_pnl := 1/2
            weekly_pnl := -3
            daily_r_multiple := 0
            weekly_r_multiple := -1
            total_trades := 7
            last_price := 100
            last_signal := none }) =
      some
        { last_updated := ⟨2024, 3, 5, 12, 30, 45, 123456⟩
          trading_active := true
          current_position := some [("side", "long")]
          active_orders := [[("uuid", "abc")]]
          daily_pnl := 1/2
          weekly_pnl := -3
          daily_r_multiple := 0
          weekly_r_multiple := -1
          total_trades := 7
          last_price := 100
          last_signal := none } :=
  C9_systemstate_roundtrip _ (by decide) (by decide) (by decide) (by decide)
    (by decide) (by decide) (by decide)

/-! ## Claim C2: trailing-stop monotonicity -/

theorem update_trailing_stop_side (p : Position) (c a m : ℚ) :
    (p.update_trailing_stop c a m).side = p.side := by
  rcases p with ⟨side, _, _, _, _, _, _, _, _, _, _, _⟩
  cases side <;> simp [Position.update_trailing_stop] <;> split_ifs <;> rfl

theorem update_trailing_stop_stop_loss (p : Position) (c a m : ℚ) :
    (p.update_trailing_stop c a m).stop_loss = p.stop_loss := by
  rcases p with ⟨side, _, _, _, _, _, _, _, _, _, _, _⟩
  cases side <;> simp [Position.update_trailing_stop] <;> split_ifs <;> rfl

theorem trail_step_long (p : Position) (c a m : ℚ) (h : p.side = PositionSide.long) :
    p.trail_price ≤ (p.update_trailing_stop c a m).trail_price := by
  simp only [Position.update_trailing_stop, h]
  split_ifs with hlt
  · exact le_of_lt hlt
  · exact le_refl _

theorem trail_step_short (p : Position) (c a m : ℚ) (h : p.side = PositionSide.short) :
    (p.update_trailing_stop c a m).trail_price ≤ p.trail_price := by
  simp only [Position.update_trailing_stop, h]
  split_ifs with hlt
  · exact le_of_lt hlt
  · exact le_refl _

theorem trail_fold_long (us : List (ℚ × ℚ × ℚ)) :
    ∀ (p : Position), p.side = PositionSide.long →
      p.trail_price ≤ (applyTrailUpdates p us).trail_price := by
  induction us with
  | nil => intro p _; exact le_refl _
  | cons u us ih =>
    intro p h
    have h1 := trail_step_long p u.1 u.2.1 u.2.2 h
    have h2 := ih (p.update_trailing_stop u.1 u.2.1 u.2.2)
      (by rw [update_trailing_stop_side, h])
    calc p.trail_price ≤ _ := h1
      _ ≤ _ := h2

theorem trail_fold_short (us : List (ℚ × ℚ × ℚ)) :
    ∀ (p : Position), p.side = PositionSide.short →
      (applyTrailUpdates p us).trail_price ≤ p.trail_price := by
  induction us with
  | nil => intro p _; exact le_refl _
  | cons u us ih =>
    intro p h
    have h1 := trail_step_short p u.1 u.2.1 u.2.2 h
    have h2 := ih (p.update_trailing_stop u.1 u.2.1 u.2.2)
      (by rw [update_trailing_stop_side, h])
    calc (applyTrailUpdates (p.update_trailing_stop u.1 u.2.1 u.2.2) us).trail_price
        ≤ _ := h2
      _ ≤ _ := h1

/-- C2: for a long position every `update_trailing_stop` call (any
price, ATR and multiplier) can only raise the trailing stop, any finite
sequence of calls leaves it at or above its starting value, and a
freshly constructed long position (whose trail starts at the fixed
stop) therefore never trails below the original stop-loss; for a short
position everything holds mirrored. -/
theorem C2_trailing_stop_monotone (p : Position) (c a m e v st ts : ℚ)
    (us : List (ℚ × ℚ × ℚ)) :
    (p.side = PositionSide.long →
      p.trail_price ≤ (p.update_trailing_stop c a m).trail_price ∧
      p.trail_price ≤ (applyTrailUpdates p us).trail_price) ∧
    (p.side = PositionSide.short →
      (p.update_trailing_stop c a m).trail_price ≤ p.trail_price ∧
      (applyTrailUpdates p us).trail_price ≤ p.trail_price) ∧
    (Position.init PositionSide.long e v st ts).stop_loss ≤
      (applyTrailUpdates (Position.init PositionSide.long e v st ts) us).trail_price ∧
    (applyTrailUpdates (Position.init PositionSide.short e v st ts) us).trail_price ≤
      (Position.init PositionSide.short e v st ts).stop_loss := by
  refine ⟨fun h => ⟨trail_step_long p c a m h, trail_fold_long us p h⟩,
    fun h => ⟨trail_step_short p c a m h, trail_fold_short us p h⟩, ?_, ?_⟩
  · exact trail_fold_long us _ rfl
  · exact trail_fold_short us _ rfl

/-- Witness for C2: a concrete long position and a concrete sequence of
updates. -/
theorem C2_trailing_stop_monotone_witness :
    (Position.init PositionSide.long 100 1 97 0).trail_price ≤
      (applyTrailUpdates (Position.init PositionSide.long 100 1 97 0)
        [(110, 1, 3), (105, 1, 3), (120, 1, 3)]).trail_price :=
  ((C2_trailing_stop_monotone (Position.init PositionSide.long 100 1 97 0)
      110 1 3 100 1 97 0 [(110, 1, 3), (105, 1, 3), (120, 1, 3)]).1 rfl).2

/-! ## Claim C3: position sizing -/

theorem calc_size_def (ps : PositionSizer) (equity entry_price stop_loss confidence : ℚ) :
    ps.calculate_position_size equity entry_price stop_loss confidence =
      if |entry_price - stop_loss| ≤ 0 then 0
      else if sizeClamped ps equity entry_price stop_loss confidence < 8/100000 then 0
      else pythonRound (sizeClamped ps equity entry_price stop_loss confidence) 8 := rfl

theorem ratFloor_eq (q : ℚ) : (ratFloor q : ℤ) = ⌊q⌋ := Rat.floor_def.symm

theorem roundHalfEven_ge (q : ℚ) : q - 1/2 ≤ (roundHalfEven q : ℚ) := by
  simp only [roundHalfEven, ratFloor_eq]
  have h1 := Int.floor_le q
  have h2 := Int.lt_floor_add_one q
  split_ifs with ha hb hc <;> push_cast <;> linarith

theorem pythonRound_pos {x : ℚ} (hx : 8/100000 ≤ x) : 0 < pythonRound x 8 := by
  have h1 : (8000 : ℚ) ≤ x * 10 ^ 8 := by
    have := mul_le_mul_of_nonneg_right hx (show (0:ℚ) ≤ 10 ^ 8 by norm_num)
    norm_num at this
    linarith [this]
  have h2 := roundHalfEven_ge (x * 10 ^ 8)
  rw [pythonRound]
  refine div_pos (lt_of_lt_of_le ?ha h2) (show (0:ℚ) < 10 ^ 8 by norm_num)
  linarith

theorem scenario_abs : |(50000000:ℚ) - 48750000| = 1250000 := by
  rw [show (50000000:ℚ) - 48750000 = 1250000 from by norm_num]
  rw [abs_of_pos (by norm_num)]

theorem scenario_clamped :
    sizeClamped ⟨50, 1⟩ 1000000 50000000 48750000 1 = 1/250 := by
  simp only [sizeClamped, scenario_abs]
  norm_num

theorem pythonRound_scenario : pythonRound (1/250) 8 = 1/250 := by
  have h1 : (1/250 : ℚ) * 10 ^ 8 = 400000 := by norm_num
  rw [pythonRound, h1]
  have h2 : roundHalfEven 400000 = 400000 := by
    simp only [roundHalfEven, ratFloor_eq]
    norm_num
  rw [h2]
  norm_num

/-- C3: the computed volume is the risk budget over the stop distance,
clamped to `0.95 * equity / entry` and rounded half-even to 8 decimals;
it is never negative, and it is zero exactly when the stop distance is
non-positive or the clamped volume is below the 0.00008 minimum unit;
the spec's scenario (equity 1,000,000, entry 50,000,000, stop
48,750,000, confidence 1, 50 bps) yields exactly 0.004 = 1/250. -/
theorem C3_size_position_spec (ps : PositionSizer)
    (equity entry_price stop_loss confidence : ℚ) :
    0 ≤ ps.calculate_position_size equity entry_price stop_loss confidence ∧
    (ps.calculate_position_size equity entry_price stop_loss confidence = 0 ↔
      |entry_price - stop_loss| ≤ 0 ∨
        sizeClamped ps equity entry_price stop_loss confidence < 8/100000) ∧
    (¬ |entry_price - stop_loss| ≤ 0 →
      ¬ sizeClamped ps equity entry_price stop_loss confidence < 8/100000 →
      ps.calculate_position_size equity entry_price stop_loss confidence =
        pythonRound (sizeClamped ps equity entry_price stop_loss confidence) 8) ∧
    PositionSizer.calculate_position_size ⟨50, 1⟩ 1000000 50000000 48750000 1 = 1/250 := by
  have hscen : PositionSizer.calculate_position_size ⟨50, 1⟩ 1000000 50000000 48750000 1
      = 1/250 := by
    rw [calc_size_def, scenario_abs, scenario_clamped]
    norm_num [pythonRound_scenario]
  refine ⟨?_, ?_, ?_, hscen⟩
  · rw [calc_size_def]
    split_ifs with h1 h2
    · exact le_refl _
    · exact le_refl _
    · exact le_of_lt (pythonRound_pos (not_lt.mp h2))
  · rw [calc_size_def]
    split_ifs with h1 h2
    · simp [h1]
    · simp [h2]
    · simp only [h1, h2, or_self, iff_false, false_or]
      exact ne_of_gt (pythonRound_pos (not_lt.mp h2))
  · intro h1 h2
    rw [calc_size_def, if_neg h1, if_neg h2]

/-- Witness for C3: at the spec's concrete scenario the non-zero branch
hypotheses hold and the volume equals the rounded clamped size. -/
theorem C3_size_position_spec_witness :
    PositionSizer.calculate_position_size ⟨50, 1⟩ 1000000 50000000 48750000 1 =
      pythonRound (sizeClamped ⟨50, 1⟩ 1000000 50000000 48750000 1) 8 :=
  (C3_size_position_spec ⟨50, 1⟩ 1000000 50000000 48750000 1).2.2.1
    (by rw [scenario_abs]; norm_num)
    (by rw [scenario_clamped]; norm_num)

/-! ## Claim C4: can_open_position gates -/

theorem afterExpiry_positionIsOpen (s : RiskManager) :
    s.afterExpiry.positionIsOpen = s.positionIsOpen := by
  rw [RiskManager.afterExpiry]; split <;> rfl

theorem afterExpiry_daily_r (s : RiskManager) :
    s.afterExpiry.daily_r_multiple = s.daily_r_multiple := by
  rw [RiskManager.afterExpiry]; split <;> rfl

theorem afterExpiry_weekly_r (s : RiskManager) :
    s.afterExpiry.weekly_r_multiple = s.weekly_r_multiple := by
  rw [RiskManager.afterExpiry]; split <;> rfl

theorem afterExpiry_daily_stop (s : RiskManager) :
    s.afterExpiry.daily_stop_r = s.daily_stop_r := by
  rw [RiskManager.afterExpiry]; split <;> rfl

theorem afterExpiry_weekly_stop (s : RiskManager) :
    s.afterExpiry.weekly_stop_r = s.weekly_stop_r := by
  rw [RiskManager.afterExpiry]; split <;> rfl

theorem halt_trading_not_open (s : RiskManager) (now : ℚ) (reason : String) (hours : ℚ)
    (h : s.positionIsOpen = false) :
    s.halt_trading now reason hours =
      { s with trading_halted := true, halt_reason := reason, halt_until := some (now + hours) } := by
  rw [RiskManager.halt_trading]
  have hsame : ({ s with trading_halted := true, halt_reason := reason, halt_until := some (now + hours) } : RiskManager).positionIsOpen = s.positionIsOpen := rfl
  rw [if_neg (by rw [hsame, h]; exact Bool.false_ne_true)]

/-- C4: `can_open_position` answers `false` whenever an unexpired halt
is recorded, whenever a non-flat position exists, and whenever the
daily (resp. weekly) accumulated R-multiple is at or below its floor
(reaching the floor exactly counts); moreover, when the daily (resp.
weekly) floor check is the one that fires, the call records a halt
until `now + 24` (resp. `now + 168`) hours. -/
theorem C4_can_open_position_gates (s : RiskManager) (now : ℚ) :
    (s.haltActive now = true → (s.can_open_position now).2.1 = false) ∧
    (s.positionIsOpen = true → (s.can_open_position now).2.1 = false) ∧
    (s.daily_r_multiple ≤ s.daily_stop_r → (s.can_open_position now).2.1 = false) ∧
    (s.weekly_r_multiple ≤ s.weekly_stop_r → (s.can_open_position now).2.1 = false) ∧
    (s.haltActive now = false → s.positionIsOpen = false →
      s.daily_r_multiple ≤ s.daily_stop_r →
      (s.can_open_position now).1.trading_halted = true ∧
      (s.can_open_position now).1.halt_until = some (now + 24)) ∧
    (s.haltActive now = false → s.positionIsOpen = false →
      s.daily_stop_r < s.daily_r_multiple → s.weekly_r_multiple ≤ s.weekly_stop_r →
      (s.can_open_position now).1.trading_halted = true ∧
      (s.can_open_position now).1.halt_until = some (now + 168)) := by
  refine ⟨?_, ?_, ?_, ?_, ?_, ?_⟩
  · intro h
    simp [RiskManager.can_open_position, h]
  · intro h
    by_cases hh : s.haltActive now
    · simp [RiskManager.can_open_position, hh]
    · simp [RiskManager.can_open_position, hh, afterExpiry_positionIsOpen, h]
  · intro h
    by_cases hh : s.haltActive now
    · simp [RiskManager.can_open_position, hh]
    · by_cases hp : s.positionIsOpen
      · simp [RiskManager.can_open_position, hh, afterExpiry_positionIsOpen, hp]
      · simp [RiskManager.can_open_position, hh, afterExpiry_positionIsOpen, hp,
          afterExpiry_daily_r, afterExpiry_daily_stop, h]
  · intro h
    by_cases hh : s.haltActive now
    · simp [RiskManager.can_open_position, hh]
    · by_cases hp : s.positionIsOpen
      · simp [RiskManager.can_open_position, hh, afterExpiry_positionIsOpen, hp]
      · by_cases hd : s.afterExpiry.daily_r_multiple ≤ s.afterExpiry.daily_stop_r
        · simp [RiskManager.can_open_position, hh, afterExpiry_positionIsOpen, hp, hd]
        · simp [RiskManager.can_open_position, hh, afterExpiry_positionIsOpen, hp, hd,
            afterExpiry_weekly_r, afterExpiry_weekly_stop, h]
  · intro hh hp h
    have hp2 : s.afterExpiry.positionIsOpen = false := by
      rw [afterExpiry_positionIsOpen]; exact hp
    have hd2 : s.afterExpiry.daily_r_multiple ≤ s.afterExpiry.daily_stop_r := by
      rw [afterExpiry_daily_r, afterExpiry_daily_stop]; exact h
    have hht := halt_trading_not_open s.afterExpiry now "일일 손실 한도 도달" 24 hp2
    simp [RiskManager.can_open_position, hh, hp2, hd2, hht]
  · intro hh hp hd hw
    have hp2 : s.afterExpiry.positionIsOpen = false := by
      rw [afterExpiry_positionIsOpen]; exact hp
    have hd2 : ¬ s.afterExpiry.daily_r_multiple ≤ s.afterExpiry.daily_stop_r := by
      rw [afterExpiry_daily_r, afterExpiry_daily_stop]; exact not_le.mpr hd
    have hw2 : s.afterExpiry.weekly_r_multiple ≤ s.afterExpiry.weekly_stop_r := by
      rw [afterExpiry_weekly_r, afterExpiry_weekly_stop]; exact hw
    have hht := halt_trading_not_open s.afterExpiry now "주간 손실 한도 도달" 168 hp2
    simp [RiskManager.can_open_position, hh, hp2, hd2, hw2, hht]

/-- Witness for C4: a flat manager sitting exactly at the −2R daily
floor is refused and a 24-hour halt is recorded. -/
theorem C4_can_open_position_gates_witness :
    (witnessFloorManager.can_open_position 0).1.trading_halted = true ∧
    (witnessFloorManager.can_open_position 0).1.halt_until = some (0 + 24) :=
  (C4_can_open_position_gates witnessFloorManager 0).2.2.2.2.1 rfl rfl
    (by norm_num [witnessFloorManager])

/-! ## Claim C5: halts are time-boxed -/

/-- C5: after `halt_trading(reason, 24)` on a flat manager above both
loss floors, every `can_open_position` call strictly before `t + 24`
answers `(false, "거래 중단 중: " ++ reason)`, and any call at or after
`t + 24` auto-clears the halt (flag, reason and deadline all reset) and
answers `true` without an explicit `resume_trading`. -/
theorem C5_halt_timebox (s : RiskManager) (t now1 now2 : ℚ) (reason : String)
    (hpos : s.positionIsOpen = false)
    (hd : s.daily_stop_r < s.daily_r_multiple)
    (hw : s.weekly_stop_r < s.weekly_r_multiple)
    (h1 : now1 < t + 24) (h2 : t + 24 ≤ now2) :
    (((s.halt_trading t reason 24).can_open_position now1).2.1 = false ∧
     ((s.halt_trading t reason 24).can_open_position now1).2.2 = "거래 중단 중: " ++ reason) ∧
    ((s.halt_trading t reason 24).can_open_position now2).2.1 = true ∧
    ((s.halt_trading t reason 24).can_open_position now2).1.trading_halted = false ∧
    ((s.halt_trading t reason 24).can_open_position now2).1.halt_reason = "" ∧
    ((s.halt_trading t reason 24).can_open_position now2).1.halt_until = none := by
  rw [halt_trading_not_open s t reason 24 hpos]
  have hact1 : ({ s with trading_halted := true, halt_reason := reason, halt_until := some (t + 24) } : RiskManager).haltActive now1 = true := by
    simp [RiskManager.haltActive, h1]
  have hact2 : ({ s with trading_halted := true, halt_reason := reason, halt_until := some (t + 24) } : RiskManager).haltActive now2 = false := by
    simp [RiskManager.haltActive, not_lt.mpr h2]
  have hres : ({ s with trading_halted := true, halt_reason := reason, halt_until := some (t + 24) } : RiskManager).afterExpiry = { s with trading_halted := false, halt_reason := "", halt_until := none } := by
    simp [RiskManager.afterExpiry, RiskManager.resume_trading]
  have hpos2 : ({ s with trading_halted := false, halt_reason := "", halt_until := none } : RiskManager).positionIsOpen = false := hpos
  constructor
  · constructor
    · simp [RiskManager.can_open_position, hact1]
    · simp [RiskManager.can_open_position, hact1]
  · have hdd : ¬ ({ s with trading_halted := false, halt_reason := "", halt_until := none } : RiskManager).daily_r_multiple ≤ ({ s with trading_halted := false, halt_reason := "", halt_until := none } : RiskManager).daily_stop_r := not_le.mpr hd
    have hww : ¬ ({ s with trading_halted := false, halt_reason := "", halt_until := none } : RiskManager).weekly_r_multiple ≤ ({ s with trading_halted := false, halt_reason := "", halt_until := none } : RiskManager).weekly_stop_r := not_le.mpr hw
    simp [RiskManager.can_open_position, hact2, hres, hpos2, hdd, hww]

/-- Witness for C5: halt an idle manager at `t = 0`; at `now = 25` the
halt has expired and opening is allowed again. -/
theorem C5_halt_timebox_witness :
    ((witnessIdleManager.halt_trading 0 "수동 중단" 24).can_open_position 25).2.1 = true :=
  (C5_halt_timebox witnessIdleManager 0 1 25 "수동 중단" rfl
    (by norm_num [witnessIdleManager]) (by norm_num [witnessIdleManager])
    (by norm_num) (by norm_num)).2.1

/-! ## Claim C6: close_position and the immediately following
can_open_position -/

theorem close_position_noop (s0 : RiskManager) (now exit_price : ℚ) (reason : String)
    (h : s0.positionIsOpen = false) :
    s0.close_position now exit_price reason = (s0, none) := by
  rcases hcp : s0.current_position with _ | p0
  · simp [RiskManager.close_position, hcp]
  · have hflat : p0.side = PositionSide.flat := by
      have := h
      simp [RiskManager.positionIsOpen, hcp, bne_iff_ne] at this
      exact this
    simp [RiskManager.close_position, hcp, hflat]

/-- Counterexample for C6 as stated: the state holds a long position
(entry 100, volume 1, stop 97, so 3 of initial risk) obtained from
`Position.init`, no halt is active, yet after closing at 91 (a −3R
loss) the immediately following `can_open_position` answers `false`,
because the loss pushed the daily R-multiple to −3, at or below the −2
floor. -/
theorem C6_close_then_open_cex :
    Position.init PositionSide.long 100 1 97 0 = witnessPosition ∧
    witnessOpenManager.positionIsOpen = true ∧
    witnessOpenManager.trading_halted = false ∧
    ((witnessOpenManager.close_position 1 91 "수동 청산").1.can_open_position 1).2.1 = false := by
  refine ⟨?_, rfl, rfl, ?_⟩
  · simp [Position.init, witnessPosition]
    rw [show (100:ℚ) - 97 = 3 from by norm_num, abs_of_pos (show (0:ℚ) < 3 from by norm_num)]
  · simp only [witnessOpenManager, witnessPosition]
    rw [RiskManager.close_position]
    simp only
    rw [if_neg (by decide : ¬ PositionSide.long = PositionSide.flat)]
    rw [Position.close_position]
    simp only
    norm_num
    rw [RiskManager.can_open_position]
    simp [RiskManager.haltActive, RiskManager.afterExpiry, RiskManager.positionIsOpen]
    norm_num

/-- C6 (amended): with an open position, `close_position` returns the
realized P&L, appends exactly the expected trade record, adds the
realized P&L and final R-multiple to the daily and weekly accumulators
and clears the position; the immediately following `can_open_position`
answers `true` provided no halt is recorded and the accumulated daily
and weekly R-multiples remain strictly above their floors after the
close; with no open position `close_position` is a no-op returning
`none`. -/
theorem C6_close_position_amended (s : RiskManager) (now now2 exit_price : ℚ)
    (reason : String) (p : Position)
    (h1 : s.current_position = some p) (h2 : p.side ≠ PositionSide.flat) :
    (s.close_position now exit_price reason).2 = some (p.close_position exit_price).2 ∧
    (s.close_position now exit_price reason).1.trade_history =
      s.trade_history ++
        [{ timestamp := now, side := (p.close_position exit_price).1.side.value, entry_price := p.entry_price, exit_price := exit_price, volume := p.volume, realized_pnl := (p.close_position exit_price).2, r_multiple := (p.close_position exit_price).1.r_multiple, mfe := p.max_favorable_excursion, mae := p.max_adverse_excursion, reason := reason }] ∧
    (s.close_position now exit_price reason).1.daily_pnl =
      s.daily_pnl + (p.close_position exit_price).2 ∧
    (s.close_position now exit_price reason).1.weekly_pnl =
      s.weekly_pnl + (p.close_position exit_price).2 ∧
    (s.close_position now exit_price reason).1.daily_r_multiple =
      s.daily_r_multiple + (p.close_position exit_price).1.r_multiple ∧
    (s.close_position now exit_price reason).1.weekly_r_multiple =
      s.weekly_r_multiple + (p.close_position exit_price).1.r_multiple ∧
    (s.close_position now exit_price reason).1.current_position = none ∧
    (s.trading_halted = false →
      s.daily_stop_r < s.daily_r_multiple + (p.close_position exit_price).1.r_multiple →
      s.weekly_stop_r < s.weekly_r_multiple + (p.close_position exit_price).1.r_multiple →
      ((s.close_position now exit_price reason).1.can_open_position now2).2.1 = true) ∧
    (∀ s0 : RiskManager, s0.positionIsOpen = false →
      s0.close_position now exit_price reason = (s0, none)) := by
  have hclose : s.close_position now exit_price reason =
      ({ s with
          trade_history := s.trade_history ++
            [{ timestamp := now, side := (p.close_position exit_price).1.side.value, entry_price := p.entry_price, exit_price := exit_price, volume := p.volume, realized_pnl := (p.close_position exit_price).2, r_multiple := (p.close_position exit_price).1.r_multiple, mfe := p.max_favorable_excursion, mae := p.max_adverse_excursion, reason := reason }]
          daily_pnl := s.daily_pnl + (p.close_position exit_price).2
          weekly_pnl := s.weekly_pnl + (p.close_position exit_price).2
          daily_r_multiple := s.daily_r_multiple + (p.close_position exit_price).1.r_multiple
          weekly_r_multiple := s.weekly_r_multiple + (p.close_position exit_price).1.r_multiple
          current_position := none },
        some (p.close_position exit_price).2) := by
    simp [RiskManager.close_position, h1, h2]
    exact ⟨rfl, rfl, rfl, rfl⟩
  refine ⟨by rw [hclose], by rw [hclose], by rw [hclose], by rw [hclose], by rw [hclose],
    by rw [hclose], by rw [hclose], ?_,
    fun s0 h => close_position_noop s0 now exit_price reason h⟩
  intro hh hdo hwo
  rw [hclose]
  simp [RiskManager.can_open_position, RiskManager.haltActive, RiskManager.afterExpiry,
    RiskManager.positionIsOpen, hh, not_le.mpr hdo, not_le.mpr hwo]

/-- Witness for C6 (amended): closing the sample position clears it. -/
theorem C6_close_position_amended_witness :
    (witnessOpenManager.close_position 0 102 "수동 청산").1.current_position = none :=
  (C6_close_position_amended witnessOpenManager 0 0 102 "수동 청산" witnessPosition rfl
    (by decide)).2.2.2.2.2.2.1

/-! ## Claim C8: emergency close at the entry price -/

/-- C8: when `halt_trading` fires with an open position, the position is
force-closed at its own entry price, so the forced close contributes
exactly zero realized P&L and zero R-multiple: all four accumulators
are unchanged and the appended trade record carries
`exit_price = entry_price`, zero P&L and zero R.  (The hypothesis
`hinv` is the constructor invariant: the R-multiple starts at zero and
is only ever reassigned under an `initial_risk > 0` guard.) -/
theorem C8_halt_force_close_zero_pnl (s : RiskManager) (now : ℚ) (reason : String)
    (hours : ℚ) (p : Position)
    (h1 : s.current_position = some p) (h2 : p.side ≠ PositionSide.flat)
    (hinv : p.initial_risk ≤ 0 → p.r_multiple = 0) :
    (s.halt_trading now reason hours).daily_pnl = s.daily_pnl ∧
    (s.halt_trading now reason hours).weekly_pnl = s.weekly_pnl ∧
    (s.halt_trading now reason hours).daily_r_multiple = s.daily_r_multiple ∧
    (s.halt_trading now reason hours).weekly_r_multiple = s.weekly_r_multiple ∧
    (s.halt_trading now reason hours).trade_history =
      s.trade_history ++
        [{ timestamp := now, side := "flat", entry_price := p.entry_price, exit_price := p.entry_price, volume := p.volume, realized_pnl := 0, r_multiple := 0, mfe := p.max_favorable_excursion, mae := p.max_adverse_excursion, reason := "긴급청산: " ++ reason }] := by
  have hreal : (p.close_position p.entry_price).2 = 0 := by
    rw [Position.close_position]
    rcases hs : p.side with _ | _ | _
    · simp [hs, sub_self]
    · simp [hs, sub_self]
    · exact absurd hs h2
  have hrm : (p.close_position p.entry_price).1.r_multiple = 0 := by
    have hdef : (p.close_position p.entry_price).1.r_multiple =
        if 0 < p.initial_risk then (p.close_position p.entry_price).2 / p.initial_risk
        else p.r_multiple := rfl
    rw [hdef, hreal]
    split_ifs with h
    · exact zero_div _
    · exact hinv (le_of_not_lt h)
  have hflat : (p.close_position p.entry_price).1.side = PositionSide.flat := rfl
  have hopen : s.positionIsOpen = true := by
    simp [RiskManager.positionIsOpen, h1, bne_iff_ne]
    exact h2
  rw [RiskManager.halt_trading]
  have hopen2 : ({ s with trading_halted := true, halt_reason := reason, halt_until := some (now + hours) } : RiskManager).positionIsOpen = true := hopen
  rw [if_pos hopen2]
  simp only [h1]
  have hcl : ∀ (x : RiskManager), x.current_position = some p →
      x.close_position now p.entry_price ("긴급청산: " ++ reason) =
        ({ x with
            trade_history := x.trade_history ++
              [{ timestamp := now, side := (p.close_position p.entry_price).1.side.value, entry_price := p.entry_price, exit_price := p.entry_price, volume := p.volume, realized_pnl := (p.close_position p.entry_price).2, r_multiple := (p.close_position p.entry_price).1.r_multiple, mfe := p.max_favorable_excursion, mae := p.max_adverse_excursion, reason := "긴급청산: " ++ reason }]
            daily_pnl := x.daily_pnl + (p.close_position p.entry_price).2
            weekly_pnl := x.weekly_pnl + (p.close_position p.entry_price).2
            daily_r_multiple := x.daily_r_multiple + (p.close_position p.entry_price).1.r_multiple
            weekly_r_multiple := x.weekly_r_multiple + (p.close_position p.entry_price).1.r_multiple
            current_position := none },
          some (p.close_position p.entry_price).2) := by
    intro x hx
    simp [RiskManager.close_position, hx, h2]
    exact ⟨rfl, rfl, rfl, rfl⟩
  rw [hcl _ rfl]
  rw [hflat, hreal, hrm]
  simp [PositionSide.value]

/-- Witness for C8: halting with the sample open position leaves the
daily P&L accumulator unchanged. -/
theorem C8_halt_force_close_zero_pnl_witness :
    (witnessOpenManager.halt_trading 5 "일일 손실 한도 도달" 24).daily_pnl =
      witnessOpenManager.daily_pnl :=
  (C8_halt_force_close_zero_pnl witnessOpenManager 5 "일일 손실 한도 도달" 24
    witnessPosition rfl (by decide)
    (fun h => absurd h (by norm_num [witnessPosition]))).1

/-! ## Claim C10: the audit record's side is always "flat" -/

/-- C10: every trade record appended by `close_position` reads the
position's side *after* `Position.close_position` has already set it to
flat, so the recorded side is the string `"flat"`, never the original
long/short direction. -/
theorem C10_trade_record_side_flat (s : RiskManager) (now exit_price : ℚ)
    (reason : String) (p : Position) (h1 : s.current_position = some p)
    (h2 : p.side = PositionSide.long ∨ p.side = PositionSide.short) :
    ∃ r : TradeRecord,
      (s.close_position now exit_price reason).1.trade_history = s.trade_history ++ [r] ∧
      r.side = "flat" ∧ r.side ≠ p.side.value := by
  have h2t : p.side ≠ PositionSide.flat := by
    rcases h2 with h | h <;> simp [h]
  have hflat : (p.close_position exit_price).1.side = PositionSide.flat := rfl
  refine ⟨{ timestamp := now, side := (p.close_position exit_price).1.side.value, entry_price := p.entry_price, exit_price := exit_price, volume := p.volume, realized_pnl := (p.close_position exit_price).2, r_multiple := (p.close_position exit_price).1.r_multiple, mfe := p.max_favorable_excursion, mae := p.max_adverse_excursion, reason := reason }, ?_, ?_, ?_⟩
  · simp [RiskManager.close_position, h1, h2t]
    exact ⟨rfl, rfl, rfl, rfl⟩
  · rw [hflat]; rfl
  · rw [hflat]
    rcases h2 with h | h <;> rw [h] <;> simp [PositionSide.value]

/-- Witness for C10 at the sample long position. -/
theorem C10_trade_record_side_flat_witness :
    ∃ r : TradeRecord,
      (witnessOpenManager.close_position 0 102 "수동 청산").1.trade_history =
        witnessOpenManager.trade_history ++ [r] ∧
      r.side = "flat" ∧ r.side ≠ witnessPosition.side.value :=
  C10_trade_record_side_flat witnessOpenManager 0 102 "수동 청산" witnessPosition rfl
    (Or.inl rfl)

/-! ## Claim C1: kill-switch activation -/

/-- C1 (code bug): evaluating the effective `activate_killswitch` (the
second, shadowing definition at state.py line 1000) on a fresh
trading-active state: the switch reports inactive before the call and
STILL inactive after it, `trading_active` is still `true`, only the
Redis `killswitch_active` key was written, no `system_state` snapshot
was persisted — while the shadowed first definition (line 706) would
have produced an active kill-switch. -/
theorem C1_killswitch_activation_ineffective :
    witnessStateManager.is_killswitch_active = false ∧
    (witnessStateManager.activate_killswitch ⟨2024, 1, 1, 0, 0, 0, 0⟩ "Manual activation").is_killswitch_active = false ∧
    ((witnessStateManager.activate_killswitch ⟨2024, 1, 1, 0, 0, 0, 0⟩ "Manual activation").current_state.map SystemState.trading_active) = some true ∧
    redisGet (witnessStateManager.activate_killswitch ⟨2024, 1, 1, 0, 0, 0, 0⟩ "Manual activation").redis "killswitch_active" = some (RedisValue.str "1") ∧
    redisGet (witnessStateManager.activate_killswitch ⟨2024, 1, 1, 0, 0, 0, 0⟩ "Manual activation").redis "system_state" = none ∧
    (witnessStateManager.activate_killswitch_shadowed ⟨2024, 1, 1, 0, 0, 0, 0⟩).is_killswitch_active = true := by
  exact ⟨rfl, rfl, rfl, rfl, rfl, rfl⟩

/-! ## Claim C7: order submission retry and ledger recording -/

theorem liveAttempts_delays (o : Order) : ∀ (n : ℕ) (b : BrokerState)
    (gw : List (Option String)),
    (liveAttempts b o n gw).2.2.length ≤ n - 1 ∧
      ∀ d ∈ (liveAttempts b o n gw).2.2, d = b.retry_delay := by
  intro n
  induction n with
  | zero => intro b gw; exact ⟨Nat.zero_le _, by simp [liveAttempts]⟩
  | succ n ih =>
    intro b gw
    match gw with
    | [] => exact ⟨Nat.zero_le _, by simp [liveAttempts]⟩
    | some u :: rest => exact ⟨Nat.zero_le _, by simp [liveAttempts]⟩
    | none :: rest =>
      by_cases hn : n = 0
      · subst hn
        exact ⟨Nat.zero_le _, by simp [liveAttempts]⟩
      · have hrec := ih b rest
        constructor
        · simp only [liveAttempts, if_neg hn]
          simp only [List.length_cons, Nat.succ_sub_one]
          omega
        · intro d hd
          simp only [liveAttempts, if_neg hn, List.mem_cons] at hd
          rcases hd with h | h
          · exact h
          · exact hrec.2 d h

theorem liveAttempts_allFail (o : Order) : ∀ (n : ℕ) (b : BrokerState)
    (gw : List (Option String)), (∀ r ∈ gw, r = none) →
    (liveAttempts b o n gw).1 = none ∧
      (liveAttempts b o n gw).2.1 = { b with failed_orders := b.failed_orders + 1 } := by
  intro n
  induction n with
  | zero => intro b gw _; exact ⟨rfl, rfl⟩
  | succ n ih =>
    intro b gw hall
    match gw with
    | [] => exact ⟨rfl, rfl⟩
    | r :: rest =>
      have hr : r = none := hall r (List.mem_cons_self r rest)
      subst hr
      by_cases hn : n = 0
      · subst hn
        exact ⟨rfl, rfl⟩
      · have hrec := ih b rest (fun x hx => hall x (List.mem_cons_of_mem _ hx))
        constructor
        · simp only [liveAttempts, if_neg hn]
          exact hrec.1
        · simp only [liveAttempts, if_neg hn]
          exact hrec.2

/-- Counterexample for C7 as stated: with the source's settings (3
attempts, 1-second delay) and a gateway failing every attempt, the
submission returns `none`, the order appears in neither `active_orders`
nor `order_history` (it is dropped, not recorded as a terminal entry),
and the two inter-attempt delays are `[1, 1]` — constant, not
increasing. -/
theorem C7_submit_retry_cex :
    (witnessBroker.execute_live_order witnessOrder [none, none, none]).1 = none ∧
    (witnessBroker.execute_live_order witnessOrder [none, none, none]).2.1.active_orders = [] ∧
    (witnessBroker.execute_live_order witnessOrder [none, none, none]).2.1.order_history = [] ∧
    (witnessBroker.execute_live_order witnessOrder [none, none, none]).2.2 = [1, 1] ∧
    ¬ List.Chain' (fun a b => a < b)
        (witnessBroker.execute_live_order witnessOrder [none, none, none]).2.2 := by
  refine ⟨rfl, rfl, rfl, rfl, ?_⟩
  intro h
  have h2 : (witnessBroker.execute_live_order witnessOrder [none, none, none]).2.2
      = [1, 1] := rfl
  rw [h2] at h
  have h3 : (1:ℚ) < 1 := (List.chain'_cons.mp h).1
  exact absurd h3 (by norm_num)

/-- C7 (amended): live submission is retried at most 3 times with a
*fixed* 1-second delay between consecutive attempts (at most two
delays, each equal to 1); when every attempt fails the order is
surfaced as `none` with only the `failed_orders` counter incremented —
it is NOT recorded in the ledger; a paper order that fails is returned
marked `rejected` but is likewise not registered. -/
theorem C7_submit_retry_amended (b : BrokerState) (o : Order)
    (gw : List (Option String)) (now : ℚ)
    (hb : b.max_retries = 3) (hd : b.retry_delay = 1) :
    (b.execute_live_order o gw).2.2.length ≤ 2 ∧
    (∀ d ∈ (b.execute_live_order o gw).2.2, d = 1) ∧
    ((∀ r ∈ gw, r = none) →
      (b.execute_live_order o gw).1 = none ∧
      (b.execute_live_order o gw).2.1 = { b with failed_orders := b.failed_orders + 1 }) ∧
    (b.execute_paper_order o now none).1.status = OrderStatus.rejected ∧
    (b.execute_paper_order o now none).2.active_orders = b.active_orders ∧
    (b.execute_paper_order o now none).2.order_history = b.order_history := by
  have hlen := liveAttempts_delays o b.max_retries b gw
  have hfail := liveAttempts_allFail o b.max_retries b gw
  refine ⟨?_, ?_, ?_, rfl, rfl, rfl⟩
  · rw [BrokerState.execute_live_order]
    exact le_trans hlen.1 (by rw [hb])
  · intro d hdm
    rw [BrokerState.execute_live_order] at hdm
    have := hlen.2 d hdm
    rw [this, hd]
  · intro hall
    have := hfail hall
    rw [BrokerState.execute_live_order]
    exact this

/-- Witness for C7 (amended): the sample broker satisfies the retry
settings and an immediately acknowledged submission sleeps no delay. -/
theorem C7_submit_retry_amended_witness :
    (witnessBroker.execute_live_order witnessOrder [some "uuid-1"]).2.2.length ≤ 2 :=
  (C7_submit_retry_amended witnessBroker witnessOrder [some "uuid-1"] 0 rfl rfl).1

end AutoBot
